import Mathlib

/-!
Verification of the DLNA media server (src/): a shallow embedding of the
Range arithmetic of `http_.py`, the id/path mapping of `didl.py`, the SSDP
address book, M-SEARCH handler and notifier of `ssdp.py`, the DIDL child
iteration of `didl.py`, and the SOAP Browse/fault paths of `soap.py`,
together with theorems settling the specification's claims about them.

Strings are modelled as `List Char` (the contents of Python `str` values),
natural numbers as `Nat`, and Python `int` results that may be negative
(the inclusive range end `size - 1`) as `Int`.
-/

namespace DLNA

/-! ### Character-list utilities (shared by several embeddings) -/

/-- Decimal value of a digit run, as `int()` computes it on a `\d+` match. -/
def digitsToNat (cs : List Char) : Nat :=
  cs.foldl (fun n c => n * 10 + (c.toNat - '0'.toNat)) 0

/-- Longest leading run of decimal digits and the remainder of the input. -/
def takeDigits : List Char → (List Char × List Char)
  | [] => ([], [])
  | c :: cs =>
    if c.isDigit then
      let (d, r) := takeDigits cs
      (c :: d, r)
    else ([], c :: cs)

/-! ### HTTP Range (`http_.py`, class `Range` and `Handler.send_file`)

`Range.__init__` matches the header against the regular expression
`bytes=(\d+)-(\d+)?` with `fullmatch`; on a match the first group is the
start and the optional second group the inclusive end (defaulting to
`size - 1`), on no match the range covers the whole file and the
`_partial` flag is false. -/

/-- Result of `re.fullmatch(r'bytes=(\d+)-(\d+)?', header)`: `none` when the
header does not match (absent or malformed), otherwise the start group and
the optional end group. -/
def parseRangeHeader : List Char → Option (Nat × Option Nat)
  | 'b' :: 'y' :: 't' :: 'e' :: 's' :: '=' :: rest =>
    let (d1, r1) := takeDigits rest
    if d1 = [] then none
    else
      match r1 with
      | '-' :: r2 =>
        if r2 = [] then some (digitsToNat d1, none)
        else
          let (d2, r3) := takeDigits r2
          if d2 ≠ [] ∧ r3 = [] then some (digitsToNat d1, some (digitsToNat d2))
          else none
      | _ => none
  | _ => none

/-- State built by `Range.__init__` from the file size and the header:
`matched` is Python's `_partial` flag (`bool(match)`), `start` the first
group or `0`, and `ending` the second group or `size - 1` (an `Int`,
since `size - 1` is `-1` for an empty file). -/
structure ByteRange where
  matched : Bool
  size : Nat
  start : Nat
  ending : Int
deriving DecidableEq

/-- Constructor of `Range` for a file of size `size` and a header value. -/
def mkByteRange (size : Nat) (header : List Char) : ByteRange :=
  match parseRangeHeader header with
  | some (a, some b) => ⟨true, size, a, (b : Int)⟩
  | some (a, none) => ⟨true, size, a, (size : Int) - 1⟩
  | none => ⟨false, size, 0, (size : Int) - 1⟩

/-- `Range.__len__`: `end - start + 1` (both ends inclusive). -/
def rangeLen (r : ByteRange) : Int :=
  r.ending - r.start + 1

/-- Reply produced by `Handler.send_file`: either the 416 error from
`send_error(REQUESTED_RANGE_NOT_SATISFIABLE)`, or a content reply with the
HTTP status, `Content-Length`, the optional `Content-Range` triple
`(start, end, size)` from `Range.__str__`, and the file slice handed to
`copyfile` as `(offset, count)`. -/
inductive FileReply where
  | notSatisfiable
  | content (status : Nat) (contentLength : Int)
      (contentRange : Option (Nat × Int × Nat))
      (bodyOffset : Nat) (bodyCount : Int)
deriving DecidableEq

/-- `Handler.send_file` on a file of size `size` with the given `Range`
header value (the empty list models an absent header, as `do_get` passes
`headers.get(RANGE, "")`): reply 416 when `len(range) <= 0`, else status
206 with a `Content-Range` header when the range matched, 200 otherwise,
streaming `len(range)` bytes from `range.start`. -/
def sendFile (size : Nat) (header : List Char) : FileReply :=
  let r := mkByteRange size header
  if rangeLen r ≤ 0 then .notSatisfiable
  else
    .content (if r.matched then 206 else 200) (rangeLen r)
      (if r.matched then some (r.start, r.ending, r.size) else none)
      r.start (rangeLen r)

/-- C1: for a file of size `S`, a GET whose Range header matches
`bytes=a-b` with `0 ≤ a ≤ b < S` is answered 206 with
`Content-Range: bytes a-b/S` and `Content-Length = b-a+1` streaming the
slice `[a, a+b-a+1)`; with no Range header or a malformed one the reply is
200 with `Content-Length = S` — amended: the full-file 200 reply requires
`S ≥ 1`, since an empty file is answered 416 even without a Range header. -/
theorem range_get_amended :
    (∀ (S a b : Nat) (hdr : List Char),
      parseRangeHeader hdr = some (a, some b) → a ≤ b → b < S →
      sendFile S hdr =
        .content 206 ((b : Int) - a + 1) (some (a, (b : Int), S)) a ((b : Int) - a + 1)) ∧
    (∀ (S : Nat) (hdr : List Char), parseRangeHeader hdr = none → 1 ≤ S →
      sendFile S hdr = .content 200 (S : Int) none 0 (S : Int)) := by
  constructor
  · intro S a b hdr hp hab hbS
    have hab' : (a : Int) ≤ (b : Int) := by exact_mod_cast hab
    simp only [sendFile, mkByteRange, hp, rangeLen]
    rw [if_neg (by omega)]
    simp
  · intro S hdr hp hS
    have hS' : (1 : Int) ≤ (S : Int) := by exact_mod_cast hS
    simp only [sendFile, mkByteRange, hp, rangeLen]
    rw [if_neg (by push_cast; omega)]
    simp only [Bool.false_eq_true, if_false, FileReply.content.injEq, true_and,
      and_true]
    push_cast
    omega

/-- Witness for C1: the amended theorem applied to a 1000-byte file with
header `bytes=10-19` and to a 5-byte file with an absent header. -/
theorem range_get_amended_witness :
    sendFile 1000 ("bytes=10-19".data) =
      .content 206 ((19 : Int) - 10 + 1) (some (10, (19 : Int), 1000)) 10
        ((19 : Int) - 10 + 1) ∧
    sendFile 5 [] = .content 200 (5 : Int) none 0 (5 : Int) :=
  ⟨range_get_amended.1 1000 10 19 ("bytes=10-19".data) (by decide) (by decide) (by decide),
   range_get_amended.2 5 [] (by decide) (by decide)⟩

/-- Counterexample for C1 as stated: an empty file (`S = 0`) requested with
no Range header is answered 416, not 200 with `Content-Length = 0`. -/
theorem range_get_counterexample :
    sendFile 0 [] = .notSatisfiable ∧
    sendFile 0 [] ≠ .content 200 0 none 0 0 := by decide

/-- C2: a 1000-byte file requested with `Range: bytes=2000-3000` is NOT
answered 416: the effective length `3000 - 2000 + 1 = 1001` is positive, so
the code replies 206 with `Content-Range: bytes 2000-3000/1000`; the reply
is 416 exactly when the effective length is non-positive, which for a start
beyond the file end happens only when the end of the range is absent. -/
theorem range_start_beyond_eof :
    sendFile 1000 ("bytes=2000-3000".data) =
      .content 206 1001 (some (2000, 3000, 1000)) 2000 1001 ∧
    sendFile 1000 ("bytes=2000-3000".data) ≠ .notSatisfiable ∧
    sendFile 1000 ("bytes=2000-".data) = .notSatisfiable ∧
    (∀ (S : Nat) (hdr : List Char),
      sendFile S hdr = .notSatisfiable ↔ rangeLen (mkByteRange S hdr) ≤ 0) := by
  refine ⟨by decide, by decide, by decide, ?_⟩
  intro S hdr
  simp only [sendFile]
  split_ifs with h
  · simpa using h
  · simpa using h

/-! ### Object id / path mapping (`didl.py`, class `IdPath`)

`IdPath` is a `PurePosixPath` subclass. A path value is modelled by its
anchoredness (whether the string began with `/`) and its list of segments;
`PurePosixPath` parsing splits on `/` and drops empty and `.` segments. -/

/-- Split a character list at every occurrence of `sep`, keeping empty
fields (the field structure `PurePosixPath` and `inet_aton` parsing see). -/
def splitOnChar (sep : Char) : List Char → List (List Char)
  | [] => [[]]
  | c :: cs =>
    let r := splitOnChar sep cs
    if c = sep then [] :: r else (c :: r.headI) :: r.tail

theorem splitOnChar_ne_nil (sep : Char) (cs : List Char) :
    splitOnChar sep cs ≠ [] := by
  cases cs with
  | nil => simp [splitOnChar]
  | cons c cs => simp only [splitOnChar]; split_ifs <;> simp

theorem splitOnChar_no_sep (sep : Char) (s : List Char) (h : sep ∉ s) :
    splitOnChar sep s = [s] := by
  induction s with
  | nil => rfl
  | cons c cs ih =>
    simp only [List.mem_cons, not_or] at h
    simp [splitOnChar, ih h.2, Ne.symm h.1]

theorem splitOnChar_append_sep (sep : Char) (s t : List Char) (h : sep ∉ s) :
    splitOnChar sep (s ++ sep :: t) = s :: splitOnChar sep t := by
  induction s with
  | nil => simp [splitOnChar]
  | cons c cs ih =>
    simp only [List.mem_cons, not_or] at h
    simp [splitOnChar, ih h.2, Ne.symm h.1]

theorem splitOnChar_intercalate (sep : Char) (segs : List (List Char))
    (hne : segs ≠ []) (h : ∀ s ∈ segs, sep ∉ s) :
    splitOnChar sep (List.intercalate [sep] segs) = segs := by
  induction segs with
  | nil => exact absurd rfl hne
  | cons s rest ih =>
    cases rest with
    | nil =>
      have hs : List.intercalate [sep] [s] = s := by simp [List.intercalate]
      rw [hs]
      exact splitOnChar_no_sep sep s (h s (List.mem_singleton_self s))
    | cons s' rest' =>
      have hinter : List.intercalate [sep] (s :: s' :: rest') =
          s ++ sep :: List.intercalate [sep] (s' :: rest') := by
        simp [List.intercalate, List.intersperse_cons_cons]
      rw [hinter, splitOnChar_append_sep sep s _ (h s (by simp))]
      rw [ih (by simp) (fun x hx => h x (List.mem_cons_of_mem s hx))]

/-- Segment-list extraction of `PurePosixPath` on a raw string: split on
`/` and discard empty and `.` fields. -/
def pppSegs (cs : List Char) : List (List Char) :=
  (splitOnChar '/' cs).filter (fun f => decide (f ≠ [] ∧ f ≠ ['.']))

/-- The state of a `PurePosixPath` value: whether it is anchored at `/`,
and its segments after the optional root. -/
structure IdPath where
  anchored : Bool
  segs : List (List Char)
deriving DecidableEq

/-- `IdPath.from_id`: `"0"` becomes the root path `/`; any other id string
is parsed as a path as-is. -/
def IdPath.fromId (id : List Char) : IdPath :=
  if id = ['0'] then ⟨true, []⟩
  else ⟨decide (id.head? = some '/'), pppSegs id⟩

/-- Python `str()` of a `PurePosixPath`: `/`-joined segments, preceded by
`/` when anchored; the empty relative path prints as `.`. -/
def IdPath.str (p : IdPath) : List Char :=
  if p.anchored then '/' :: List.intercalate ['/'] p.segs
  else if p.segs = [] then ['.'] else List.intercalate ['/'] p.segs

/-- `IdPath.as_id`: the root path maps to `"0"`, every other path to its
string form. -/
def IdPath.asId (p : IdPath) : List Char :=
  if p = ⟨true, []⟩ then ['0'] else p.str

/-- `IdPath.from_path(root, path)`: `cls("/", path.relative_to(root))`.
Filesystem paths are segment lists; `relative_to` raises unless `root` is
a prefix, so the result is an `Option`. -/
def IdPath.fromPath (root p : List (List Char)) : Option IdPath :=
  if root.isPrefixOf p then some ⟨true, p.drop root.length⟩ else none

/-- `IdPath.as_path(root)`: `root / self.relative_to("/")`; `relative_to`
raises on a non-anchored path, so the result is an `Option`. -/
def IdPath.asPath (p : IdPath) (root : List (List Char)) :
    Option (List (List Char)) :=
  if p.anchored then some (root ++ p.segs) else none

/-- A well-formed path segment: non-empty, not `.`, and without `/` (what
any real file name under the media root satisfies). -/
def validSeg (s : List Char) : Prop := s ≠ [] ∧ s ≠ ['.'] ∧ '/' ∉ s

instance (s : List Char) : Decidable (validSeg s) := by
  unfold validSeg; infer_instance

theorem pppSegs_slash_intercalate (segs : List (List Char))
    (h : ∀ s ∈ segs, validSeg s) :
    pppSegs ('/' :: List.intercalate ['/'] segs) = segs := by
  have hsplit : splitOnChar '/' ('/' :: List.intercalate ['/'] segs) =
      [] :: splitOnChar '/' (List.intercalate ['/'] segs) := by
    simp [splitOnChar]
  by_cases hsegs : segs = []
  · subst hsegs
    simp [pppSegs, hsplit, List.intercalate, splitOnChar]
  · simp only [pppSegs]
    rw [hsplit, splitOnChar_intercalate '/' segs hsegs
      (fun x hx => (h x hx).2.2)]
    simp only [List.filter_cons]
    rw [if_neg (by simp)]
    exact List.filter_eq_self.mpr fun x hx => by
      have hv := h x hx
      simp only [validSeg] at hv
      simp [hv.1, hv.2.1]

/-- C3: the id/path mapping round-trips: for every filesystem path
`root ++ rel` under the media root whose segments are well-formed,
`from_path(root, p).as_id()` followed by `from_id` and `as_path(root)`
returns `p`; the root itself maps to id `"0"` and `"0"` maps back to the
root; every other path maps to its `/`-rooted relative form. -/
theorem id_path_roundtrip (root rel : List (List Char))
    (h : ∀ s ∈ rel, validSeg s) :
    IdPath.fromPath root (root ++ rel) = some ⟨true, rel⟩ ∧
    (IdPath.fromId (IdPath.asId ⟨true, rel⟩)).asPath root = some (root ++ rel) ∧
    IdPath.asId ⟨true, []⟩ = ['0'] ∧
    IdPath.fromId ['0'] = ⟨true, []⟩ ∧
    (rel ≠ [] →
      IdPath.asId ⟨true, rel⟩ = '/' :: List.intercalate ['/'] rel) := by
  refine ⟨?_, ?_, rfl, rfl, ?_⟩
  · have hpre : root.isPrefixOf (root ++ rel) = true := by
      rw [List.isPrefixOf_iff_prefix]
      exact List.prefix_append root rel
    simp [IdPath.fromPath, hpre]
  · by_cases hrel : rel = []
    · subst hrel
      simp [IdPath.asId, IdPath.fromId, IdPath.asPath]
    · have hne : ((⟨true, rel⟩ : IdPath) = ⟨true, []⟩) = False := by
        simp [hrel]
      have hid : IdPath.asId ⟨true, rel⟩ = '/' :: List.intercalate ['/'] rel := by
        simp [IdPath.asId, IdPath.str, hne]
      rw [hid]
      have hnotzero : ('/' :: List.intercalate ['/'] rel = ['0']) = False := by
        simp
      simp only [IdPath.fromId, hnotzero, if_false]
      rw [pppSegs_slash_intercalate rel h]
      simp [IdPath.asPath]
  · intro hrel
    have hne : ((⟨true, rel⟩ : IdPath) = ⟨true, []⟩) = False := by simp [hrel]
    simp [IdPath.asId, IdPath.str, hne]

/-- Witness for C3: the round-trip theorem applied to the concrete root
`/media` and relative path `a/b.mp4`. -/
theorem id_path_roundtrip_witness :
    IdPath.fromPath ["media".data] ("media".data :: ["a".data, "b.mp4".data]) =
      some ⟨true, ["a".data, "b.mp4".data]⟩ ∧
    (IdPath.fromId (IdPath.asId ⟨true, ["a".data, "b.mp4".data]⟩)).asPath
      ["media".data] = some ("media".data :: ["a".data, "b.mp4".data]) := by
  have h := id_path_roundtrip ["media".data] ["a".data, "b.mp4".data]
    (by decide)
  exact ⟨h.1, h.2.1⟩

/-! ### SSDP address book (`ssdp.py`, class `Address`)

`Address` is a `dict` from dotted-quad strings to a named tuple
`(timeout, packed)`. The dict is modelled as an insertion-ordered
association list; the expiry is an `Option Nat` where `none` stands for
`+inf` (the class-level `timeout = float("inf")` still in force while
`__init__` adds its first entry, since `now + inf = inf`). -/

/-- `Address._pack`: `int.from_bytes(socket.inet_aton(address), "big")` on
a dotted-quad decimal address; `none` when the string is not one (where
`inet_aton` would raise). -/
def packChars (cs : List Char) : Option Nat :=
  let parts := splitOnChar '.' cs
  if parts.length = 4 ∧ ∀ p ∈ parts, p ≠ [] ∧ p.all Char.isDigit ∧
      digitsToNat p ≤ 255 then
    some (parts.foldl (fun n p => n * 256 + digitsToNat p) 0)
  else none

/-- The sentinel `Address.ANY = "0.0.0.0"`. -/
def anyAddr : List Char := "0.0.0.0".data

/-- The named tuple `Address._data`: expiry instant (`none` = `+inf`) and
the packed 32-bit form stored at `add` time. -/
structure AddrData where
  timeout : Option Nat
  packed : Nat
deriving DecidableEq

/-- The address book: an insertion-ordered map, as a Python dict is. -/
abbrev Book := List (List Char × AddrData)

/-- Keys of the book in insertion order. -/
def Book.keys (b : Book) : List (List Char) := b.map Prod.fst

/-- Python `self[address]` value lookup (first entry with the key). -/
def Book.lookup (b : Book) (a : List Char) : AddrData :=
  ((b.find? (fun e => e.1 == a)).map Prod.snd).getD ⟨none, 0⟩

/-- Python `self[address] = data`: replace in place when the key exists,
append otherwise. -/
def Book.set (b : Book) (a : List Char) (d : AddrData) : Book :=
  if b.any (fun e => e.1 == a) then
    b.map (fun e => if e.1 == a then (a, d) else e)
  else b ++ [(a, d)]

/-- `Address.add`: store `(now + timeout, pack(address))`; a `none`
timeout is the class-level `+inf` in force during `__init__`. -/
def Book.add (b : Book) (a : List Char) (now : Nat) (tmo : Option Nat) : Book :=
  b.set a ⟨tmo.map (now + ·), (packChars a).getD 0⟩

/-- `Address.__init__(address, timeout)`: `self.add(address)` runs before
`self.timeout = timeout`, so the single initial entry is stored under the
class-level `timeout = float("inf")`. -/
def Book.init (a : List Char) (now : Nat) : Book :=
  Book.add [] a now none

/-- `Address.__iter__`: iterate a copy with the `0.0.0.0` sentinel removed
whenever the book holds more than one entry. -/
def Book.iterKeys (b : Book) : List (List Char) :=
  if anyAddr ∈ b.keys ∧ b.length > 1 then
    b.keys.filter (fun k => ¬ k == anyAddr)
  else b.keys

/-- Python `min(it, key=f)` given a first element: scan keeping the first
element attaining the least key. -/
def pyMinFrom (f : List Char → Nat) (best : List Char) :
    List (List Char) → List Char
  | [] => best
  | x :: xs => pyMinFrom f (if f x < f best then x else best) xs

/-- Python `min(it, key=f, default=d)`. -/
def pyMinBy (f : List Char → Nat) (d : List Char) :
    List (List Char) → List Char
  | [] => d
  | x :: xs => pyMinFrom f x xs

/-- `Address.select`: the iterated address minimizing
`self[address].packed ^ pack(client)`, defaulting to the sentinel. -/
def Book.select (b : Book) (client : List Char) : List Char :=
  pyMinBy (fun a => (b.lookup a).packed ^^^ (packChars client).getD 0)
    anyAddr b.iterKeys

/-- True when `now > timeout` in `Address.update` (never for `+inf`). -/
def expired (now : Nat) : Option Nat → Bool
  | none => false
  | some t => decide (now > t)

/-- `Address.update`: delete every iterated key whose expiry has passed
(the iteration snapshot is taken before any deletion). -/
def Book.update (b : Book) (now : Nat) : Book :=
  b.filter (fun e => ¬ (e.1 ∈ b.iterKeys ∧ expired now e.2.timeout = true))

theorem pyMinFrom_mem (f : List Char → Nat) (b : List Char)
    (l : List (List Char)) : pyMinFrom f b l = b ∨ pyMinFrom f b l ∈ l := by
  induction l generalizing b with
  | nil => exact Or.inl rfl
  | cons x xs ih =>
    simp only [pyMinFrom]
    rcases ih (if f x < f b then x else b) with h | h
    · rw [h]
      split_ifs with hx
      · exact Or.inr (List.mem_cons_self x xs)
      · exact Or.inl rfl
    · exact Or.inr (List.mem_cons_of_mem x h)

theorem pyMinFrom_le (f : List Char → Nat) (b : List Char)
    (l : List (List Char)) :
    f (pyMinFrom f b l) ≤ f b ∧ ∀ x ∈ l, f (pyMinFrom f b l) ≤ f x := by
  induction l generalizing b with
  | nil => exact ⟨le_refl _, by simp⟩
  | cons x xs ih =>
    simp only [pyMinFrom]
    obtain ⟨h1, h2⟩ := ih (if f x < f b then x else b)
    refine ⟨?_, ?_⟩
    · refine le_trans h1 ?_
      split_ifs with hx
      · exact le_of_lt hx
      · exact le_refl _
    · intro y hy
      rcases List.mem_cons.mp hy with rfl | hy'
      · refine le_trans h1 ?_
        split_ifs with hx
        · exact le_refl _
        · exact le_of_not_lt hx
      · exact h2 y hy'

theorem pyMinBy_spec (f : List Char → Nat) (d : List Char)
    (l : List (List Char)) (hl : l ≠ []) :
    pyMinBy f d l ∈ l ∧ ∀ x ∈ l, f (pyMinBy f d l) ≤ f x := by
  cases l with
  | nil => exact absurd rfl hl
  | cons k ks =>
    simp only [pyMinBy]
    obtain ⟨h1, h2⟩ := pyMinFrom_le f k ks
    refine ⟨?_, ?_⟩
    · rcases pyMinFrom_mem f k ks with h | h
      · rw [h]; exact List.mem_cons_self k ks
      · exact List.mem_cons_of_mem k h
    · intro x hx
      rcases List.mem_cons.mp hx with rfl | hx'
      · exact h1
      · exact h2 x hx'

theorem two_mem_one_lt_length {α : Type} {l : List α} {x y : α}
    (hx : x ∈ l) (hy : y ∈ l) (hxy : x ≠ y) : 1 < l.length := by
  cases l with
  | nil => simp at hx
  | cons a t =>
    cases t with
    | nil =>
      simp only [List.mem_singleton] at hx hy
      exact absurd (hx.trans hy.symm) hxy
    | cons b u => simp

/-- C4: in an address book holding real entries plus the `0.0.0.0`
sentinel, `select(C)` returns a real address minimizing the XOR of its
packed 32-bit form with `C`'s packed form (the sentinel being excluded
from iteration when a real entry exists); a book holding only the sentinel
selects `0.0.0.0`. -/
theorem address_select (b : Book) (client : List Char)
    (hany : anyAddr ∈ b.keys)
    (hreal : ∃ a ∈ b.keys, a ≠ anyAddr) :
    b.select client ∈ b.keys ∧ b.select client ≠ anyAddr ∧
    (∀ a ∈ b.keys, a ≠ anyAddr →
      (b.lookup (b.select client)).packed ^^^ (packChars client).getD 0 ≤
      (b.lookup a).packed ^^^ (packChars client).getD 0) ∧
    (∀ d : AddrData, Book.select [(anyAddr, d)] client = anyAddr) := by
  obtain ⟨a0, ha0, ha0ne⟩ := hreal
  have hlen : 1 < b.length := by
    have h := two_mem_one_lt_length ha0 hany ha0ne
    simpa [Book.keys] using h
  have hiter : b.iterKeys = b.keys.filter (fun k => ¬ k == anyAddr) := by
    simp only [Book.iterKeys]
    rw [if_pos ⟨hany, hlen⟩]
  have hne : b.iterKeys ≠ [] := by
    rw [hiter]
    intro hemp
    have hmem : a0 ∈ b.keys.filter (fun k => ¬ k == anyAddr) :=
      List.mem_filter.mpr ⟨ha0, by simp [ha0ne]⟩
    rw [hemp] at hmem
    simp at hmem
  obtain ⟨hmem, hmin⟩ := pyMinBy_spec
    (fun a => (b.lookup a).packed ^^^ (packChars client).getD 0)
    anyAddr b.iterKeys hne
  have hsel : b.select client ∈ b.iterKeys := hmem
  rw [hiter] at hsel
  obtain ⟨hselkeys, hselne⟩ := List.mem_filter.mp hsel
  refine ⟨hselkeys, by simpa using hselne, ?_, ?_⟩
  · intro a ha hane
    refine hmin a ?_
    rw [hiter]
    exact List.mem_filter.mpr ⟨ha, by simp [hane]⟩
  · intro d
    rfl

/-- The address book of the spec's M-SEARCH scenario: the server starts
bound to `0.0.0.0` and learns `192.168.1.10` and `10.0.0.5` from NOTIFY
traffic. -/
def scenarioBook : Book :=
  ((Book.init anyAddr 0).add "192.168.1.10".data 5 (some 30)).add
    "10.0.0.5".data 5 (some 30)

/-- Witness for C4: the selection theorem applied to the scenario book and
client `192.168.1.77`. -/
theorem address_select_witness :
    scenarioBook.select "192.168.1.77".data ∈ scenarioBook.keys ∧
    scenarioBook.select "192.168.1.77".data ≠ anyAddr :=
  have h := address_select scenarioBook "192.168.1.77".data (by decide)
    (by decide)
  ⟨h.1, h.2.1⟩

theorem find_replace (b : Book) (a : List Char) (d : AddrData)
    (h : b.any (fun e => e.1 == a) = true) :
    (b.map (fun e => if e.1 == a then (a, d) else e)).find?
      (fun e => e.1 == a) = some (a, d) := by
  induction b with
  | nil => simp at h
  | cons e t ih =>
    simp only [List.any_cons, Bool.or_eq_true] at h
    simp only [List.map_cons]
    by_cases he : (e.1 == a) = true
    · rw [if_pos he]
      simp [List.find?]
    · rw [if_neg he]
      rw [List.find?_cons_of_neg _ (by simpa using he)]
      exact ih (h.resolve_left he)

theorem lookup_set (b : Book) (a : List Char) (d : AddrData) :
    (b.set a d).lookup a = d := by
  unfold Book.set
  split_ifs with h
  · unfold Book.lookup
    rw [find_replace b a d h]
    rfl
  · unfold Book.lookup
    have hnone : b.find? (fun e => e.1 == a) = none := by
      rw [List.find?_eq_none]
      intro e he hcontra
      exact h (List.any_eq_true.mpr ⟨e, he, hcontra⟩)
    rw [List.find?_append, hnone]
    simp [List.find?]

theorem nodup_keys_eq {b : Book} (h : b.keys.Nodup) {a : List Char}
    {p q : AddrData} (hp : (a, p) ∈ b) (hq : (a, q) ∈ b) : p = q := by
  induction b with
  | nil => simp at hp
  | cons e t ih =>
    simp only [Book.keys, List.map_cons, List.nodup_cons] at h
    rcases List.mem_cons.mp hp with hp1 | hp'
    · rcases List.mem_cons.mp hq with hq1 | hq'
      · have hpq : (a, p) = (a, q) := hp1.trans hq1.symm
        injection hpq
      · exfalso
        apply h.1
        rw [← hp1]
        exact List.mem_map.mpr ⟨(a, q), hq', rfl⟩
    · rcases List.mem_cons.mp hq with hq1 | hq'
      · exfalso
        apply h.1
        rw [← hq1]
        exact List.mem_map.mpr ⟨(a, p), hp', rfl⟩
      · exact ih h.2 hp' hq'

/-- Counterexample for C10 as stated: with a real initial entry in place,
the sentinel `0.0.0.0` added afterwards via `add` (expiry `0 + 30`) is
still in the book after `update()` at time `31`, although its expiry has
passed — `update` iterates with the sentinel suppressed. -/
theorem address_expiry_counterexample :
    anyAddr ∈ (((Book.init "10.0.0.5".data 0).add anyAddr 0 (some 30)).update
      31).keys ∧
    expired 31 ((((Book.init "10.0.0.5".data 0).add anyAddr 0
      (some 30)).lookup anyAddr).timeout) = true := by decide

/-- C10 amended: the initial entry is stored with expiry `+inf` (the
class-level timeout still in effect when `add` runs in `__init__`), and an
entry with infinite expiry is never removed by `update()`; an address
added afterwards via `add()` is stored with expiry `now + timeout`, and a
non-sentinel entry whose expiry has passed is removed by `update()` — a
sentinel entry added later escapes `update()` whenever a real entry
coexists, since iteration suppresses it. -/
theorem address_expiry_amended :
    (∀ (a : List Char) (now : Nat),
      Book.init a now = [(a, ⟨none, (packChars a).getD 0⟩)]) ∧
    (∀ (b : Book) (now : Nat) (a : List Char) (d : AddrData),
      (a, d) ∈ b → d.timeout = none → (a, d) ∈ b.update now) ∧
    (∀ (b : Book) (a : List Char) (now t : Nat),
      (b.add a now (some t)).lookup a =
        ⟨some (now + t), (packChars a).getD 0⟩) ∧
    (∀ (b : Book) (a : List Char) (p : AddrData) (now : Nat),
      b.keys.Nodup → (a, p) ∈ b → a ≠ anyAddr →
      expired now p.timeout = true → a ∉ (b.update now).keys) := by
  refine ⟨fun a now => rfl, ?_, fun b a now t => lookup_set b a _, ?_⟩
  · intro b now a d hmem hto
    refine List.mem_filter.mpr ⟨hmem, ?_⟩
    simp [hto, expired]
  · intro b a p now hnodup hmem hane hexp hcontra
    obtain ⟨e, he, hkey⟩ := List.mem_map.mp hcontra
    obtain ⟨heb, hkeep⟩ := List.mem_filter.mp he
    have heb' : (a, e.2) ∈ b := by
      rw [← hkey, Prod.mk.eta]
      exact heb
    have hd : e.2 = p := nodup_keys_eq hnodup heb' hmem
    have hiter : a ∈ b.iterKeys := by
      simp only [Book.iterKeys]
      split_ifs with hc
      · exact List.mem_filter.mpr
          ⟨List.mem_map.mpr ⟨(a, p), hmem, rfl⟩, by simp [hane]⟩
      · exact List.mem_map.mpr ⟨(a, p), hmem, rfl⟩
    rw [hkey, hd] at hkeep
    simp [hiter, hexp] at hkeep

/-- Witness for C10: the amended theorem applied to the concrete book that
starts at `10.0.0.5` and then learns `192.168.1.10` with timeout 30. -/
theorem address_expiry_amended_witness :
    Book.init "10.0.0.5".data 0 =
      [("10.0.0.5".data, ⟨none, (packChars "10.0.0.5".data).getD 0⟩)] ∧
    ("10.0.0.5".data, (⟨none, 167772165⟩ : AddrData)) ∈
      (((Book.init "10.0.0.5".data 0).add "192.168.1.10".data 0
        (some 30)).update 31) ∧
    (((Book.init "10.0.0.5".data 0).add "192.168.1.10".data 0
      (some 30)).lookup "192.168.1.10".data) =
      ⟨some (0 + 30), (packChars "192.168.1.10".data).getD 0⟩ ∧
    "192.168.1.10".data ∉
      ((((Book.init "10.0.0.5".data 0).add "192.168.1.10".data 0
        (some 30))).update 31).keys :=
  ⟨address_expiry_amended.1 "10.0.0.5".data 0,
   address_expiry_amended.2.1 _ 31 "10.0.0.5".data ⟨none, 167772165⟩
     (by decide) rfl,
   address_expiry_amended.2.2.1 _ "192.168.1.10".data 0 30,
   address_expiry_amended.2.2.2 _ "192.168.1.10".data ⟨some 30, 3232235786⟩
     31 (by decide) (by decide) (by decide) (by decide)⟩

/-! ### SSDP M-SEARCH handling (`ssdp.py`, `Handler.do_m_search` and
`Handler.send_discover`) -/

/-- A unicast discover response as `Handler.send_discover` builds it:
status 200, `ST` the matched target, the `LOCATION` hostname chosen by
`location_for(client)` (that is, `addresses.select(client)`), and `USN`
from the target map. -/
structure DiscoverReply where
  status : Nat
  st : List Char
  locationHost : List Char
  usn : List Char
deriving DecidableEq

/-- `Handler.send_discover(target)` for a server with the given target map
and address book, answering the given client address. -/
def sendDiscover (targets : List (List Char × List Char)) (book : Book)
    (client target : List Char) : DiscoverReply :=
  ⟨200, target, book.select client,
    ((targets.find? (fun e => e.1 == target)).map Prod.snd).getD []⟩

/-- `Handler.do_m_search`: the body reads the `ST` header into a local
variable and returns; the dispatch on the search target (`ssdp:all`, a
target-map key) and the calls to `send_discover` are commented out, so no
reply is ever produced. -/
def doMSearch (_targets : List (List Char × List Char)) (_book : Book)
    (_client _st : List Char) : List DiscoverReply := []

/-- C5: the code never answers an M-SEARCH: `do_m_search` emits no reply
whatever the `ST` header is, in particular not in the spec's scenario
(`ST: upnp:rootdevice` from `192.168.1.77` with addresses `192.168.1.10`
and `10.0.0.5` learned), although the intended reply there would carry
`LOCATION` hostname `192.168.1.10`, the XOR-closest learned address. -/
theorem m_search_no_reply :
    (∀ (targets : List (List Char × List Char)) (book : Book)
      (client st : List Char), doMSearch targets book client st = []) ∧
    doMSearch [] scenarioBook "192.168.1.77".data "upnp:rootdevice".data
      = [] ∧
    scenarioBook.select "192.168.1.77".data = "192.168.1.10".data ∧
    (sendDiscover [("upnp:rootdevice".data, "usn".data)] scenarioBook
      "192.168.1.77".data "upnp:rootdevice".data).locationHost =
      "192.168.1.10".data :=
  ⟨fun _ _ _ _ => rfl, rfl, by decide, by decide⟩

/-! ### SSDP notifier lifecycle (`ssdp.py`, `C.serve_forever`)

The notifier sends a BYE burst, then loops sending an ALIVE burst and
waiting `timeout // 3` seconds on the shutdown event (breaking once it is
set), and sends a final BYE burst. The trace is modelled at burst
granularity by the NTS value each burst carries; `n` counts the waits that
time out before shutdown is requested, so `n + 1` ALIVE bursts occur. -/

/-- NTS values of `Message`. -/
inductive Nts where
  | alive
  | byebye
deriving DecidableEq

/-- Bursts of the `while True` loop body: one ALIVE burst per iteration,
the shutdown check coming after the send. -/
def loopBursts : Nat → List Nts
  | 0 => [.alive]
  | n + 1 => .alive :: loopBursts n

/-- Whole-run burst trace of `C.serve_forever`. -/
def notifierTrace (n : Nat) : List Nts :=
  .byebye :: (loopBursts n ++ [.byebye])

theorem loopBursts_eq (n : Nat) :
    loopBursts n = List.replicate (n + 1) .alive := by
  induction n with
  | zero => rfl
  | succ m ih => simp [loopBursts, ih, List.replicate]

/-- C9: the first burst of the notifier's run carries `ssdp:byebye`, every
burst between it and the final one carries `ssdp:alive` (and at least one
ALIVE burst occurs), and the final burst after the shutdown signal carries
`ssdp:byebye`; no ALIVE precedes the initial BYE or follows the final one. -/
theorem notifier_lifecycle (n : Nat) :
    (notifierTrace n).head? = some .byebye ∧
    (notifierTrace n).getLast? = some .byebye ∧
    (∀ x ∈ ((notifierTrace n).drop 1).dropLast, x = .alive) ∧
    ((notifierTrace n).drop 1).dropLast ≠ [] := by
  have htr : notifierTrace n =
      .byebye :: (List.replicate (n + 1) Nts.alive ++ [.byebye]) := by
    rw [notifierTrace, loopBursts_eq]
  refine ⟨by rw [htr]; rfl, ?_, ?_, ?_⟩
  · rw [htr, ← List.cons_append, List.getLast?_concat]
  · intro x hx
    rw [htr] at hx
    simp only [List.drop_one, List.tail_cons, List.dropLast_concat] at hx
    exact List.eq_of_mem_replicate hx
  · rw [htr]
    simp [List.dropLast_concat]

/-! ### DIDL object enumeration (`didl.py`, `Object.__iter__`) -/

/-- A filesystem node under the media root: its path relative to the root
as segments, whether it is a directory, and the libmagic MIME string
(meaningful for files). -/
structure FsEntry where
  rel : List (List Char)
  isDir : Bool
  mime : List Char
deriving DecidableEq

/-- `Object.mime_type`: `self.mime.split("/")[0]`, the MIME major class. -/
def mimeClass (m : List Char) : List Char :=
  m.takeWhile (fun c => c ≠ '/')

/-- The MIME classes `Object.__iter__` accepts for files. -/
def mediaClasses : List (List Char) :=
  ["image".data, "audio".data, "video".data]

/-- `self.path.glob("*")`: the entries exactly one level below the
object's path. -/
def globChildren (fs : List FsEntry) (obj : List (List Char)) :
    List FsEntry :=
  fs.filter (fun e => obj.isPrefixOf e.rel ∧ e.rel.length = obj.length + 1)

/-- `self.path.rglob("*")`: the entries strictly below the object's path,
at any depth. -/
def rglobChildren (fs : List FsEntry) (obj : List (List Char)) :
    List FsEntry :=
  fs.filter (fun e => obj.isPrefixOf e.rel ∧ obj.length < e.rel.length)

/-- `Object.__iter__`: enumerate one level in `browse` mode, recursively
in `search` mode, nothing otherwise; yield only directories and entries
whose MIME major class is `image`, `audio` or `video`. -/
def objIter (fs : List FsEntry) (obj : List (List Char))
    (command : List Char) : List FsEntry :=
  (if command = "browse".data then globChildren fs obj
   else if command = "search".data then rglobChildren fs obj
   else []).filter (fun e => e.isDir ∨ mimeClass e.mime ∈ mediaClasses)

/-- C7: every child yielded by the DIDL iteration, in browse and search
mode alike, is a directory or has MIME major class `image`, `audio` or
`video`. -/
theorem didl_filter (fs : List FsEntry) (obj : List (List Char))
    (cmd : List Char) (e : FsEntry) (h : e ∈ objIter fs obj cmd) :
    e.isDir = true ∨ mimeClass e.mime ∈ mediaClasses := by
  obtain ⟨_, hp⟩ := List.mem_filter.mp h
  simpa using hp

/-- Witness for C7: the filter theorem applied to a one-file filesystem
browsed at the root. -/
theorem didl_filter_witness :
    (⟨["a.mp4".data], false, "video/mp4".data⟩ : FsEntry).isDir = true ∨
    mimeClass "video/mp4".data ∈ mediaClasses :=
  didl_filter [⟨["a.mp4".data], false, "video/mp4".data⟩] [] "browse".data
    ⟨["a.mp4".data], false, "video/mp4".data⟩ (by decide)

/-! ### SOAP Browse/Search (`soap.py`, `Handler`) -/

/-- `Handler.browse_slice` applied to the child list: Python
`children[start : start + count]` for the non-negative `StartingIndex`
and `RequestedCount` of a Browse request. -/
def pySlice {α : Type} (l : List α) (start count : Nat) : List α :=
  (l.drop start).take count

/-- The numeric fields and serialized children of a Browse/Search
response as `do_browse` fills its template. -/
structure BrowseResult where
  result : List FsEntry
  numberReturned : Nat
  totalMatches : Nat
deriving DecidableEq

/-- `Handler.do_browse`: slice the object's children, serialize the slice
into `Result`, and report `TotalMatches` as the full recomputed child
count and `NumberReturned` as the slice length. -/
def doBrowse (fs : List FsEntry) (obj : List (List Char)) (cmd : List Char)
    (start count : Nat) : BrowseResult :=
  { result := pySlice (objIter fs obj cmd) start count
    numberReturned := (pySlice (objIter fs obj cmd) start count).length
    totalMatches := (objIter fs obj cmd).length }

/-- C6: in every Browse/Search response, `NumberReturned` is at most
`RequestedCount`, `TotalMatches` is the full unsliced filtered child
count, and `NumberReturned` equals the number of children serialized into
`Result`, which is the slice `[start, start + count)` of the children. -/
theorem browse_totals (fs : List FsEntry) (obj : List (List Char))
    (cmd : List Char) (start count : Nat) :
    (doBrowse fs obj cmd start count).numberReturned ≤ count ∧
    (doBrowse fs obj cmd start count).totalMatches =
      (objIter fs obj cmd).length ∧
    (doBrowse fs obj cmd start count).numberReturned =
      (doBrowse fs obj cmd start count).result.length ∧
    (doBrowse fs obj cmd start count).result =
      pySlice (objIter fs obj cmd) start count := by
  refine ⟨?_, rfl, rfl, rfl⟩
  simp only [doBrowse, pySlice, List.length_take]
  omega

/-- The UPnP status entries of `soap.Status` used by the handler. -/
structure SoapStatus where
  value : Nat
  phrase : List Char
deriving DecidableEq

/-- `Status.INVALID_ACTION`: 401, "Invalid Action". -/
def invalidAction : SoapStatus := ⟨401, "Invalid Action".data⟩

/-- `Status.INVALID_ARGS`: 402, "Invalid Args". -/
def invalidArgs : SoapStatus := ⟨402, "Invalid Args".data⟩

/-- A reply of the SOAP handler: a fault template filled with an error
code and description and sent with an HTTP status, a Browse/Search
response, or the static search-capabilities template. -/
inductive SoapReply where
  | fault (httpStatus : Nat) (errorCode : Nat) (errorDescription : List Char)
  | browse (r : BrowseResult)
  | capabilities
deriving DecidableEq

/-- `Handler.send_error`: fill the `fault` template with `errorCode` and
`errorDescription` and send it with HTTP status 500
(`INTERNAL_SERVER_ERROR`). -/
def sendSoapError (code : SoapStatus) : SoapReply :=
  .fault 500 code.value code.phrase

/-- The `do_`-prefixed action methods `soap.Handler` defines. -/
def knownActions : List (List Char) :=
  ["getsearchcapabilities".data, "search".data, "browse".data]

/-- `Handler.handle` after a successful parse: dispatch `do_<action>`,
falling back to `send_error(Status.INVALID_ACTION)` when no method of
that name exists (`do_search` delegates to `do_browse`). -/
def soapHandle (fs : List FsEntry) (obj : List (List Char))
    (cmd : List Char) (start count : Nat) : SoapReply :=
  if cmd = "browse".data ∨ cmd = "search".data then
    .browse (doBrowse fs obj cmd start count)
  else if cmd = "getsearchcapabilities".data then .capabilities
  else sendSoapError invalidAction

/-- C8: a SOAP POST naming an action with no `do_<action>` handler is
answered with the fault template filled with error code 401
(`INVALID_ACTION`) and its description, sent with HTTP status 500; and
every SOAP fault is delivered as the fault template with its status's
code and phrase under HTTP 500. -/
theorem soap_unknown_action (fs : List FsEntry) (obj : List (List Char))
    (cmd : List Char) (start count : Nat) (h : cmd ∉ knownActions) :
    soapHandle fs obj cmd start count =
      .fault 500 401 ("Invalid Action".data) ∧
    (∀ code : SoapStatus,
      sendSoapError code = .fault 500 code.value code.phrase) := by
  simp only [knownActions, List.mem_cons, List.not_mem_nil, not_or] at h
  obtain ⟨h1, h2, h3, -⟩ := h
  refine ⟨?_, fun code => rfl⟩
  rw [soapHandle, if_neg (not_or.mpr ⟨h3, h2⟩), if_neg h1]
  rfl

/-- Witness for C8: the fault theorem applied to the unknown action
`sort`. -/
theorem soap_unknown_action_witness :
    soapHandle [] [] "sort".data 0 0 =
      .fault 500 401 ("Invalid Action".data) ∧
    (∀ code : SoapStatus,
      sendSoapError code = .fault 500 code.value code.phrase) :=
  soap_unknown_action [] [] "sort".data 0 0 (by decide)

end DLNA

